import Mathlib

/-!
Shallow embedding of the real-time presence and notification fan-out
subsystem of the discord-backend repository.

The socket server (source: `setupSocketServer`) keeps two module-level maps:

* `onlineUsers : Map<string, Set<string>>` — user id to set of open socket
  (session) ids;
* `userActiveChannel : Map<string, string>` — user id to the room the user
  is currently viewing.

JavaScript `Map`s are modelled as association lists with unique keys
(insertion order preserved, `set` on an existing key replaces in place,
`set` on a fresh key appends); `Set`s are modelled as duplicate-free lists
(`add` appends when absent).
-/

namespace DiscordBackend

abbrev UserId := String
abbrev SessionId := String
abbrev RoomId := String

/-- `Map.get(k)` on an association list: value of the first entry whose key
is `k`. -/
def lookupA {κ α : Type} [DecidableEq κ] : List (κ × α) → κ → Option α
  | [], _ => none
  | (k', v) :: rest, k => if k' = k then some v else lookupA rest k

/-- `Map.set(k, v)`: replace the value at the first entry with key `k`, or
append a new entry when `k` is absent. -/
def insertA {κ α : Type} [DecidableEq κ] : List (κ × α) → κ → α → List (κ × α)
  | [], k, v => [(k, v)]
  | (k', v') :: rest, k, v =>
    if k' = k then (k, v) :: rest else (k', v') :: insertA rest k v

/-- `Map.delete(k)`: remove the first entry with key `k`. -/
def eraseA {κ α : Type} [DecidableEq κ] : List (κ × α) → κ → List (κ × α)
  | [], _ => []
  | (k', v') :: rest, k => if k' = k then rest else (k', v') :: eraseA rest k

/-- `Set.add(x)` on a duplicate-free list: append `x` when absent. -/
def setAdd (s : List String) (x : String) : List String :=
  if x ∈ s then s else s ++ [x]

/-- `Set.delete(x)`: remove `x`. -/
def setDel (s : List String) (x : String) : List String :=
  s.filter (fun y => y ≠ x)

/-- The two module-level maps of `setupSocketServer`. -/
structure ServerState where
  onlineUsers : List (UserId × List SessionId)
  userActiveChannel : List (UserId × RoomId)
deriving DecidableEq, Repr

/-- The state before any socket event: both maps empty. -/
def initialServerState : ServerState := ⟨[], []⟩

/-- Socket events handled by `setupSocketServer`.  `connect` / `disconnect`
carry the handshake user id (absent when the frontend sent none) and the
socket id; `joinRoom` / `leaveRoom` carry the acting socket's
`socket.data.userId` and the room id. -/
inductive SockEvent where
  | connect (userId : Option UserId) (sessionId : SessionId)
  | disconnect (userId : Option UserId) (sessionId : SessionId)
  | joinRoom (userId : UserId) (roomId : RoomId)
  | leaveRoom (userId : UserId) (roomId : RoomId)
deriving DecidableEq, Repr

/-- Events the handlers emit that matter to presence. -/
inductive Emit where
  | userOnline (userId : UserId)
  | onlineUsersSnapshot (users : List UserId)
  | userOffline (userId : UserId)
deriving DecidableEq, Repr

/-- JavaScript truthiness of the handshake `userId` (absent or the empty
string are falsy). -/
def truthy : Option String → Bool
  | none => false
  | some s => s != ""

/-- One step of the socket server: the `connection`, `disconnect`,
`joinRoom` and `leaveRoom` handlers of `setupSocketServer`, returning the
new state and the presence events emitted. -/
def socketServerStep (st : ServerState) : SockEvent → ServerState × List Emit
  | .connect uid sid =>
    match uid with
    | some u =>
      if u = "" then (st, [])
      else
        -- if (!onlineUsers.has(userId)) onlineUsers.set(userId, new Set());
        -- onlineUsers.get(userId)!.add(sessionId);
        let sessions := (lookupA st.onlineUsers u).getD []
        let sessions' := setAdd sessions sid
        let st' := { st with onlineUsers := insertA st.onlineUsers u sessions' }
        -- if (onlineUsers.get(userId)!.size === 1) broadcast + snapshot
        if sessions'.length = 1 then
          (st', [.userOnline u, .onlineUsersSnapshot (st'.onlineUsers.map Prod.fst)])
        else (st', [])
    | none => (st, [])
  | .disconnect uid sid =>
    match uid with
    | some u =>
      if u = "" then (st, [])
      else
        -- if (userId && onlineUsers.has(userId))
        match lookupA st.onlineUsers u with
        | some sessions =>
          let sessions' := setDel sessions sid
          if sessions' = [] then
            ({ st with onlineUsers := eraseA st.onlineUsers u }, [.userOffline u])
          else
            ({ st with onlineUsers := insertA st.onlineUsers u sessions' }, [])
        | none => (st, [])
    | none => (st, [])
  | .joinRoom u r =>
    -- userActiveChannel.set(socket.data.userId, roomId)
    ({ st with userActiveChannel := insertA st.userActiveChannel u r }, [])
  | .leaveRoom u r =>
    -- const current = userActiveChannel.get(...); if (current === roomId) delete
    match lookupA st.userActiveChannel u with
    | some current =>
      if current = r then
        ({ st with userActiveChannel := eraseA st.userActiveChannel u }, [])
      else (st, [])
    | none => (st, [])

/-- Run a trace of socket events from a given state, accumulating emissions. -/
def runTraceFrom (st : ServerState) : List SockEvent → ServerState × List Emit
  | [] => (st, [])
  | e :: rest =>
    ((runTraceFrom (socketServerStep st e).1 rest).1,
     (socketServerStep st e).2 ++ (runTraceFrom (socketServerStep st e).1 rest).2)

/-- Run a trace from the initial (empty) state. -/
def runTrace (tr : List SockEvent) : ServerState × List Emit :=
  runTraceFrom initialServerState tr

/-- `io.getOnlineUsers()`: `Array.from(onlineUsers.keys())`. -/
def getOnlineUsers (st : ServerState) : List UserId :=
  st.onlineUsers.map Prod.fst

/-- The session set the registry holds for a user (empty when absent). -/
def sessionsOf (st : ServerState) (u : UserId) : List SessionId :=
  (lookupA st.onlineUsers u).getD []

/-- `userActiveChannel.get(userId)`. -/
def activeRoomOf (st : ServerState) (u : UserId) : Option RoomId :=
  lookupA st.userActiveChannel u

/-- Ground-truth update of one user's open-session set by one socket event:
a registered connect opens a session, a disconnect closes it. -/
def openStep (f : UserId → List SessionId) : SockEvent → UserId → List SessionId
  | .connect (some u') sid, u =>
    if u' ≠ "" ∧ u' = u then setAdd (f u) sid else f u
  | .disconnect (some u') sid, u =>
    if u' ≠ "" ∧ u' = u then setDel (f u) sid else f u
  | _, u => f u

/-- Ground-truth open sessions per user after a trace, starting from a given
session assignment. -/
def openFrom (f : UserId → List SessionId) : List SockEvent → UserId → List SessionId
  | [] => f
  | e :: rest => openFrom (openStep f e) rest

/-- Ground-truth open sessions per user after a trace from the empty start. -/
def openSessions (tr : List SockEvent) : UserId → List SessionId :=
  openFrom (fun _ => []) tr

/-! ### Association-list and set lemmas -/

theorem lookupA_insertA_self {κ α : Type} [DecidableEq κ] (m : List (κ × α)) (k : κ) (v : α) :
    lookupA (insertA m k v) k = some v := by
  induction m with
  | nil => simp [insertA, lookupA]
  | cons p rest ih =>
    obtain ⟨k', v'⟩ := p
    by_cases h : k' = k
    · simp [insertA, h, lookupA]
    · simp [insertA, h, lookupA, ih]

theorem lookupA_insertA_ne {κ α : Type} [DecidableEq κ] (m : List (κ × α)) (k k' : κ) (v : α)
    (h : k ≠ k') : lookupA (insertA m k v) k' = lookupA m k' := by
  induction m with
  | nil => simp [insertA, lookupA, h]
  | cons p rest ih =>
    obtain ⟨k₀, v₀⟩ := p
    by_cases h₀ : k₀ = k
    · subst h₀; simp [insertA, lookupA, h]
    · simp [insertA, h₀, lookupA, ih]

theorem lookupA_eraseA_ne {κ α : Type} [DecidableEq κ] (m : List (κ × α)) (k k' : κ)
    (h : k ≠ k') : lookupA (eraseA m k) k' = lookupA m k' := by
  induction m with
  | nil => simp [eraseA]
  | cons p rest ih =>
    obtain ⟨k₀, v₀⟩ := p
    by_cases h₀ : k₀ = k
    · subst h₀; simp [eraseA, lookupA, h]
    · simp [eraseA, h₀, lookupA, ih]

theorem lookupA_eraseA_self {κ α : Type} [DecidableEq κ] (m : List (κ × α)) (k : κ)
    (hnd : (m.map Prod.fst).Nodup) : lookupA (eraseA m k) k = none := by
  induction m with
  | nil => simp [eraseA, lookupA]
  | cons p rest ih =>
    obtain ⟨k₀, v₀⟩ := p
    simp only [List.map_cons, List.nodup_cons] at hnd
    by_cases h₀ : k₀ = k
    · subst h₀
      simp only [eraseA, if_pos rfl]
      -- k is not a key of rest, so lookup fails
      clear ih
      induction rest with
      | nil => simp [lookupA]
      | cons q rest' ih' =>
        obtain ⟨k₁, v₁⟩ := q
        simp only [List.map_cons, List.mem_cons, not_or] at hnd
        have hk₁ : k₁ ≠ k₀ := fun hh => hnd.1.1 hh.symm
        simp only [lookupA, if_neg hk₁]
        exact ih' ⟨fun hh => hnd.1.2 hh, hnd.2.of_cons⟩
    · simp only [eraseA, if_neg h₀, lookupA, if_neg h₀]
      exact ih hnd.2

theorem mem_keys_iff_lookupA {κ α : Type} [DecidableEq κ] (m : List (κ × α)) (k : κ) :
    k ∈ m.map Prod.fst ↔ (lookupA m k).isSome := by
  induction m with
  | nil => simp [lookupA]
  | cons p rest ih =>
    obtain ⟨k₀, v₀⟩ := p
    by_cases h₀ : k₀ = k
    · subst h₀; simp [lookupA]
    · have h₀' : k ≠ k₀ := fun hh => h₀ hh.symm
      simp [lookupA, h₀, h₀', ih]

theorem keys_insertA {κ α : Type} [DecidableEq κ] (m : List (κ × α)) (k : κ) (v : α) :
    (insertA m k v).map Prod.fst =
      if (lookupA m k).isSome then m.map Prod.fst else m.map Prod.fst ++ [k] := by
  induction m with
  | nil => simp [insertA, lookupA]
  | cons p rest ih =>
    obtain ⟨k₀, v₀⟩ := p
    by_cases h₀ : k₀ = k
    · subst h₀; simp [insertA, lookupA]
    · simp only [insertA, if_neg h₀, List.map_cons, lookupA, ih]
      by_cases hs : (lookupA rest k).isSome <;> simp [h₀, hs]

theorem keys_nodup_insertA {κ α : Type} [DecidableEq κ] (m : List (κ × α)) (k : κ) (v : α)
    (hnd : (m.map Prod.fst).Nodup) : ((insertA m k v).map Prod.fst).Nodup := by
  rw [keys_insertA]
  by_cases hs : (lookupA m k).isSome
  · simpa [hs] using hnd
  · have hk : k ∉ m.map Prod.fst := by
      rw [mem_keys_iff_lookupA]
      simpa using hs
    simp [hs, List.nodup_append, hnd, hk]

theorem keys_nodup_eraseA {κ α : Type} [DecidableEq κ] (m : List (κ × α)) (k : κ)
    (hnd : (m.map Prod.fst).Nodup) : ((eraseA m k).map Prod.fst).Nodup := by
  induction m with
  | nil => simp [eraseA]
  | cons p rest ih =>
    obtain ⟨k₀, v₀⟩ := p
    simp only [List.map_cons, List.nodup_cons] at hnd
    by_cases h₀ : k₀ = k
    · subst h₀; simpa [eraseA] using hnd.2
    · -- keys of eraseA rest k are a subset of keys of rest
      have hsub : ∀ x, x ∈ (eraseA rest k).map Prod.fst → x ∈ rest.map Prod.fst := by
        clear ih hnd
        intro x
        induction rest with
        | nil => simp [eraseA]
        | cons q rest' ih' =>
          obtain ⟨k₁, v₁⟩ := q
          by_cases h₁ : k₁ = k
          · subst h₁; simp [eraseA]; tauto
          · simp only [eraseA, if_neg h₁, List.map_cons, List.mem_cons]
            rintro (rfl | hx)
            · exact Or.inl rfl
            · exact Or.inr (ih' hx)
      simp only [eraseA, if_neg h₀, List.map_cons, List.nodup_cons]
      exact ⟨fun hh => hnd.1 (hsub _ hh), ih hnd.2⟩

theorem insertA_lookupA_self {κ α : Type} [DecidableEq κ] (m : List (κ × α)) (k : κ) (v : α)
    (h : lookupA m k = some v) : insertA m k v = m := by
  induction m with
  | nil => simp [lookupA] at h
  | cons p rest ih =>
    obtain ⟨k₀, v₀⟩ := p
    by_cases h₀ : k₀ = k
    · subst h₀
      have h' : v₀ = v := by simpa [lookupA] using h
      simp [insertA, h']
    · simp only [lookupA, if_neg h₀] at h
      simp [insertA, h₀, ih h]

theorem mem_setAdd_self (s : List String) (x : String) : x ∈ setAdd s x := by
  by_cases h : x ∈ s <;> simp [setAdd, h]

theorem setAdd_ne_nil (s : List String) (x : String) : setAdd s x ≠ [] := by
  intro h
  exact (List.not_mem_nil x) (h ▸ mem_setAdd_self s x)

theorem setAdd_of_mem {s : List String} {x : String} (h : x ∈ s) : setAdd s x = s := by
  simp [setAdd, h]

/-! ### Registry invariants and trace correspondence -/

/-- Keys of a modelled JS `Map` are unique. -/
def KeysNodup {κ α : Type} (m : List (κ × α)) : Prop := (m.map Prod.fst).Nodup

/-- Invariant maintained by the socket server: both maps have unique keys
and every stored session set is non-empty. -/
def StateInv (st : ServerState) : Prop :=
  KeysNodup st.onlineUsers ∧ KeysNodup st.userActiveChannel ∧
  ∀ u l, lookupA st.onlineUsers u = some l → l ≠ []

theorem initial_state_inv : StateInv initialServerState := by
  refine ⟨by simp [KeysNodup, initialServerState], by simp [KeysNodup, initialServerState], ?_⟩
  intro u l hl
  simp [initialServerState, lookupA] at hl

theorem socketServerStep_sessions (st : ServerState) (e : SockEvent) (h : StateInv st) :
    StateInv (socketServerStep st e).1 ∧
    ∀ u, sessionsOf (socketServerStep st e).1 u = openStep (sessionsOf st) e u := by
  obtain ⟨hnd, hndA, hval⟩ := h
  cases e with
  | connect uid sid =>
    cases uid with
    | none => exact ⟨⟨hnd, hndA, hval⟩, fun u => by simp [socketServerStep, openStep]⟩
    | some u' =>
      by_cases hu : u' = ""
      · subst hu
        refine ⟨?_, ?_⟩
        · simpa [socketServerStep] using ⟨hnd, hndA, hval⟩
        · intro u; simp [socketServerStep, openStep]
      · have hstate : (socketServerStep st (.connect (some u') sid)).1 =
            { st with onlineUsers := insertA st.onlineUsers u' (setAdd (sessionsOf st u') sid) } := by
          simp only [socketServerStep, if_neg hu, sessionsOf]
          split <;> rfl
        refine ⟨?_, ?_⟩
        · rw [hstate]
          refine ⟨keys_nodup_insertA _ _ _ hnd, hndA, ?_⟩
          intro u l hl
          by_cases hc : u' = u
          · subst hc
            rw [lookupA_insertA_self] at hl
            exact (Option.some.injEq _ _ ▸ hl) ▸ setAdd_ne_nil _ _
          · rw [lookupA_insertA_ne _ _ _ _ hc] at hl
            exact hval u l hl
        · intro u
          rw [hstate]
          by_cases hc : u' = u
          · subst hc
            simp [sessionsOf, lookupA_insertA_self, openStep, hu]
          · simp [sessionsOf, lookupA_insertA_ne _ _ _ _ hc, openStep, hu, hc]
  | disconnect uid sid =>
    cases uid with
    | none => exact ⟨⟨hnd, hndA, hval⟩, fun u => by simp [socketServerStep, openStep]⟩
    | some u' =>
      by_cases hu : u' = ""
      · subst hu
        refine ⟨?_, ?_⟩
        · simpa [socketServerStep] using ⟨hnd, hndA, hval⟩
        · intro u; simp [socketServerStep, openStep]
      · cases hl : lookupA st.onlineUsers u' with
        | none =>
          have hstate : socketServerStep st (.disconnect (some u') sid) = (st, []) := by
            simp [socketServerStep, if_neg hu, hl]
          refine ⟨hstate ▸ ⟨hnd, hndA, hval⟩, ?_⟩
          intro u
          rw [hstate]
          by_cases hc : u' = u
          · subst hc
            simp [sessionsOf, hl, openStep, hu, setDel]
          · simp [openStep, hu, hc]
        | some sessions =>
          by_cases hemp : setDel sessions sid = []
          · have hstate : (socketServerStep st (.disconnect (some u') sid)).1 =
                { st with onlineUsers := eraseA st.onlineUsers u' } := by
              simp [socketServerStep, if_neg hu, hl, hemp]
            refine ⟨?_, ?_⟩
            · rw [hstate]
              refine ⟨keys_nodup_eraseA _ _ hnd, hndA, ?_⟩
              intro u l hl'
              by_cases hc : u' = u
              · subst hc
                rw [lookupA_eraseA_self _ _ hnd] at hl'
                exact absurd hl' (by simp)
              · rw [lookupA_eraseA_ne _ _ _ hc] at hl'
                exact hval u l hl'
            · intro u
              rw [hstate]
              by_cases hc : u' = u
              · subst hc
                simp [sessionsOf, lookupA_eraseA_self _ _ hnd, openStep, hu, hl, hemp]
              · simp [sessionsOf, lookupA_eraseA_ne _ _ _ hc, openStep, hu, hc]
          · have hstate : (socketServerStep st (.disconnect (some u') sid)).1 =
                { st with onlineUsers := insertA st.onlineUsers u' (setDel sessions sid) } := by
              simp [socketServerStep, if_neg hu, hl, hemp]
            refine ⟨?_, ?_⟩
            · rw [hstate]
              refine ⟨keys_nodup_insertA _ _ _ hnd, hndA, ?_⟩
              intro u l hl'
              by_cases hc : u' = u
              · subst hc
                rw [lookupA_insertA_self] at hl'
                exact (Option.some.injEq _ _ ▸ hl') ▸ hemp
              · rw [lookupA_insertA_ne _ _ _ _ hc] at hl'
                exact hval u l hl'
            · intro u
              rw [hstate]
              by_cases hc : u' = u
              · subst hc
                simp [sessionsOf, lookupA_insertA_self, openStep, hu, hl]
              · simp [sessionsOf, lookupA_insertA_ne _ _ _ _ hc, openStep, hu, hc]
  | joinRoom u r =>
    refine ⟨⟨hnd, keys_nodup_insertA _ _ _ hndA, hval⟩, ?_⟩
    intro u'; simp [socketServerStep, sessionsOf, openStep]
  | leaveRoom u r =>
    cases hl : lookupA st.userActiveChannel u with
    | none =>
      have hstate : socketServerStep st (.leaveRoom u r) = (st, []) := by
        simp [socketServerStep, hl]
      exact ⟨hstate ▸ ⟨hnd, hndA, hval⟩, fun u' => by rw [hstate]; simp [openStep]⟩
    | some cur =>
      by_cases hcur : cur = r
      · have hstate : (socketServerStep st (.leaveRoom u r)).1 =
            { st with userActiveChannel := eraseA st.userActiveChannel u } := by
          simp [socketServerStep, hl, hcur]
        refine ⟨?_, ?_⟩
        · rw [hstate]
          exact ⟨hnd, keys_nodup_eraseA _ _ hndA, hval⟩
        · intro u'; rw [hstate]; simp [sessionsOf, openStep]
      · have hstate : socketServerStep st (.leaveRoom u r) = (st, []) := by
          simp [socketServerStep, hl, hcur]
        exact ⟨hstate ▸ ⟨hnd, hndA, hval⟩, fun u' => by rw [hstate]; simp [openStep]⟩

theorem runTraceFrom_sessions :
    ∀ (tr : List SockEvent) (st : ServerState), StateInv st →
      StateInv (runTraceFrom st tr).1 ∧
      sessionsOf (runTraceFrom st tr).1 = openFrom (sessionsOf st) tr := by
  intro tr
  induction tr with
  | nil => exact fun st h => ⟨h, rfl⟩
  | cons e rest ih =>
    intro st h
    obtain ⟨h', hsess⟩ := socketServerStep_sessions st e h
    obtain ⟨h'', hsess'⟩ := ih (socketServerStep st e).1 h'
    refine ⟨by simpa [runTraceFrom] using h'', ?_⟩
    have hopen : openFrom (sessionsOf st) (e :: rest) =
        openFrom (sessionsOf (socketServerStep st e).1) rest := by
      have hAB : openStep (sessionsOf st) e = sessionsOf (socketServerStep st e).1 :=
        funext fun u => (hsess u).symm
      simp only [openFrom, hAB]
    rw [hopen]
    simpa [runTraceFrom] using hsess'

theorem lookupA_isSome_iff_sessions_ne_nil (st : ServerState) (hInv : StateInv st) (u : UserId) :
    (lookupA st.onlineUsers u).isSome ↔ sessionsOf st u ≠ [] := by
  cases hl : lookupA st.onlineUsers u with
  | none => simp [sessionsOf, hl]
  | some l =>
    simp only [sessionsOf, hl, Option.getD_some, Option.isSome_some, true_iff]
    exact hInv.2.2 u l hl

theorem runTrace_inv (tr : List SockEvent) : StateInv (runTrace tr).1 :=
  (runTraceFrom_sessions tr initialServerState initial_state_inv).1

/-! ### Claim theorems on the Connection Registry and Active-Room Tracker -/

/-- C5: for every sequence of connect (register) and disconnect (unregister)
events, the snapshot returned by `getOnlineUsers` equals exactly the set of
user ids with a non-empty session set: the registry's session set for each
user equals the ground-truth set of open sessions of the trace, a user is in
the snapshot exactly when that ground-truth set is non-empty, and exactly
when the registry holds a non-empty session set for the user. -/
theorem online_users_eq_nonempty_session_sets (tr : List SockEvent) (u : UserId) :
    sessionsOf (runTrace tr).1 u = openSessions tr u ∧
    (u ∈ getOnlineUsers (runTrace tr).1 ↔ openSessions tr u ≠ []) ∧
    (u ∈ getOnlineUsers (runTrace tr).1 ↔ sessionsOf (runTrace tr).1 u ≠ []) := by
  obtain ⟨hInv, hsess⟩ := runTraceFrom_sessions tr initialServerState initial_state_inv
  have hinit : sessionsOf initialServerState = fun _ => [] := funext fun _ => rfl
  have h1 : sessionsOf (runTrace tr).1 u = openSessions tr u := by
    rw [runTrace, hsess, hinit, openSessions]
  have h3 : u ∈ getOnlineUsers (runTrace tr).1 ↔ sessionsOf (runTrace tr).1 u ≠ [] := by
    rw [getOnlineUsers, mem_keys_iff_lookupA]
    exact lookupA_isSome_iff_sessions_ne_nil _ (runTrace_inv tr) u
  exact ⟨h1, h1 ▸ h3, h3⟩

/-- C5 witness: the theorem at a concrete trace (one user connects twice,
then drops one session). -/
theorem online_users_eq_nonempty_session_sets_witness :
    sessionsOf (runTrace [.connect (some "u") "s1", .connect (some "u") "s2",
        .disconnect (some "u") "s1"]).1 "u" =
      openSessions [.connect (some "u") "s1", .connect (some "u") "s2",
        .disconnect (some "u") "s1"] "u" ∧
    ("u" ∈ getOnlineUsers (runTrace [.connect (some "u") "s1", .connect (some "u") "s2",
        .disconnect (some "u") "s1"]).1 ↔
      openSessions [.connect (some "u") "s1", .connect (some "u") "s2",
        .disconnect (some "u") "s1"] "u" ≠ []) ∧
    ("u" ∈ getOnlineUsers (runTrace [.connect (some "u") "s1", .connect (some "u") "s2",
        .disconnect (some "u") "s1"]).1 ↔
      sessionsOf (runTrace [.connect (some "u") "s1", .connect (some "u") "s2",
        .disconnect (some "u") "s1"]).1 "u" ≠ []) :=
  online_users_eq_nonempty_session_sets _ "u"

/-- C10: a connection whose handshake carries no user id is a registry
no-op: its connect adds no session, changes no state and emits nothing (no
`userOnline` broadcast, no `onlineUsers` snapshot), and its disconnect
removes nothing and emits nothing (no `userOffline`). -/
theorem unauthenticated_connection_noop (st : ServerState) (sid : SessionId) :
    socketServerStep st (.connect none sid) = (st, []) ∧
    socketServerStep st (.disconnect none sid) = (st, []) :=
  ⟨rfl, rfl⟩

/-- C10 witness: the theorem at a concrete state. -/
theorem unauthenticated_connection_noop_witness :
    socketServerStep ⟨[("a", ["s1"])], []⟩ (.connect none "x") = (⟨[("a", ["s1"])], []⟩, []) ∧
    socketServerStep ⟨[("a", ["s1"])], []⟩ (.disconnect none "x") = (⟨[("a", ["s1"])], []⟩, []) :=
  unauthenticated_connection_noop ⟨[("a", ["s1"])], []⟩ "x"

/-- C3 counterexample: registering the same (userId, sessionId) pair twice,
with no intervening drain to empty, makes the registry report "first
session" (and broadcast `userOnline`) twice, refuting "at most once per
user until that user's session set drains to empty"; the session set is
nonetheless not double-counted (it is still `["s"]`). -/
theorem register_duplicate_refires_first_session :
    (runTrace [.connect (some "u") "s", .connect (some "u") "s"]).2.count (.userOnline "u") = 2 ∧
    sessionsOf (runTrace [.connect (some "u") "s", .connect (some "u") "s"]).1 "u" = ["s"] := by
  decide

/-- C3 amended: registering the same (userId, sessionId) pair twice does not
double-count it — the second registration leaves the registry state
unchanged — but `register` reports "first session" exactly when the
post-registration session set has exactly one element, so a duplicate
registration of a user's sole session re-reports "first session" without
the set having drained to empty. -/
theorem register_duplicate_noop_first_iff_singleton (st : ServerState) (u : UserId)
    (s : SessionId) (hu : u ≠ "") :
    (socketServerStep (socketServerStep st (.connect (some u) s)).1 (.connect (some u) s)).1 =
      (socketServerStep st (.connect (some u) s)).1 ∧
    ((socketServerStep (socketServerStep st (.connect (some u) s)).1
        (.connect (some u) s)).2 ≠ [] ↔
      sessionsOf (socketServerStep st (.connect (some u) s)).1 u = [s]) := by
  have hstate : (socketServerStep st (.connect (some u) s)).1 =
      { st with onlineUsers := insertA st.onlineUsers u (setAdd (sessionsOf st u) s) } := by
    simp only [socketServerStep, if_neg hu, sessionsOf]
    split <;> rfl
  set st₁ := (socketServerStep st (.connect (some u) s)).1 with hst₁
  have hlook : lookupA st₁.onlineUsers u = some (setAdd (sessionsOf st u) s) := by
    rw [hstate]; exact lookupA_insertA_self _ _ _
  have hsess₁ : sessionsOf st₁ u = setAdd (sessionsOf st u) s := by
    simp [sessionsOf, hlook]
  have hmem : s ∈ sessionsOf st₁ u := hsess₁ ▸ mem_setAdd_self _ _
  have hAdd : setAdd (sessionsOf st₁ u) s = sessionsOf st₁ u := setAdd_of_mem hmem
  have hins : insertA st₁.onlineUsers u (setAdd ((lookupA st₁.onlineUsers u).getD []) s) =
      st₁.onlineUsers := by
    show insertA st₁.onlineUsers u (setAdd (sessionsOf st₁ u) s) = st₁.onlineUsers
    rw [hAdd]
    exact insertA_lookupA_self _ _ _ (hsess₁ ▸ hlook)
  constructor
  · simp only [socketServerStep, if_neg hu, hins]
    split <;> rfl
  · simp only [socketServerStep, if_neg hu]
    constructor
    · intro hne
      by_cases hlen : (setAdd ((lookupA st₁.onlineUsers u).getD []) s).length = 1
      · have hlen' : (sessionsOf st₁ u).length = 1 := by
          rw [← hAdd]; exact hlen
        obtain ⟨a, ha⟩ := List.length_eq_one.mp hlen'
        rw [ha] at hmem
        simp at hmem
        rw [ha, hmem]
      · simp only [if_neg hlen] at hne
        exact absurd rfl hne
    · intro hsing
      have hlen : (setAdd ((lookupA st₁.onlineUsers u).getD []) s).length = 1 := by
        show (setAdd (sessionsOf st₁ u) s).length = 1
        rw [hAdd, hsing]
        rfl
      simp [if_pos hlen]

/-- C3 amended witness: the theorem at the empty registry with user "u"
and session "s". -/
theorem register_duplicate_noop_first_iff_singleton_witness :
    (socketServerStep (socketServerStep initialServerState (.connect (some "u") "s")).1
        (.connect (some "u") "s")).1 =
      (socketServerStep initialServerState (.connect (some "u") "s")).1 ∧
    ((socketServerStep (socketServerStep initialServerState (.connect (some "u") "s")).1
        (.connect (some "u") "s")).2 ≠ [] ↔
      sessionsOf (socketServerStep initialServerState (.connect (some "u") "s")).1 "u" = ["s"]) :=
  register_duplicate_noop_first_iff_singleton initialServerState "u" "s" (by decide)

/-- C4 counterexample: after the trace connect("u","s"), joinRoom("u","r"),
disconnect("u","s") the user "u" has zero open sessions and is absent from
the Connection Registry, yet the Active-Room Tracker still records room "r"
for "u": the disconnect cycle did not clear the active-room entry. -/
theorem stale_active_room_after_disconnect :
    getOnlineUsers (runTrace [.connect (some "u") "s", .joinRoom "u" "r",
      .disconnect (some "u") "s"]).1 = [] ∧
    activeRoomOf (runTrace [.connect (some "u") "s", .joinRoom "u" "r",
      .disconnect (some "u") "s"]).1 "u" = some "r" := by
  decide

/-- C4 amended: the disconnect handler never touches the Active-Room
Tracker — a disconnect (even of the user's last session) leaves
`userActiveChannel` unchanged — and an active-room entry is removed only by
a leaveRoom whose room id equals the recorded room; hence a user absent
from the Connection Registry may retain a recorded active room
indefinitely. -/
theorem active_room_cleared_only_by_matching_leave (st : ServerState) (uid : Option UserId)
    (sid : SessionId) (u : UserId) (r : RoomId) (hnd : KeysNodup st.userActiveChannel) :
    (socketServerStep st (.disconnect uid sid)).1.userActiveChannel = st.userActiveChannel ∧
    activeRoomOf (socketServerStep st (.leaveRoom u r)).1 u =
      (if activeRoomOf st u = some r then none else activeRoomOf st u) := by
  constructor
  · cases uid with
    | none => rfl
    | some u' =>
      by_cases hu : u' = ""
      · simp [socketServerStep, hu]
      · cases hl : lookupA st.onlineUsers u' with
        | none => simp [socketServerStep, hu, hl]
        | some sessions =>
          simp only [socketServerStep, if_neg hu, hl]
          split <;> rfl
  · cases hl : lookupA st.userActiveChannel u with
    | none =>
      simp [socketServerStep, hl, activeRoomOf]
    | some cur =>
      by_cases hcur : cur = r
      · subst hcur
        simp [socketServerStep, hl, activeRoomOf, lookupA_eraseA_self _ _ hnd]
      · simp [socketServerStep, hl, hcur, activeRoomOf, fun hh => hcur (Option.some.injEq cur r ▸ hh)]

/-- C4 amended witness: the theorem at a concrete state where "u" views
room "r" while holding one open session. -/
theorem active_room_cleared_only_by_matching_leave_witness :
    (socketServerStep ⟨[("u", ["s"])], [("u", "r")]⟩
        (.disconnect (some "u") "s")).1.userActiveChannel = [("u", "r")] ∧
    activeRoomOf (socketServerStep ⟨[("u", ["s"])], [("u", "r")]⟩ (.leaveRoom "u" "r")).1 "u" =
      (if activeRoomOf ⟨[("u", ["s"])], [("u", "r")]⟩ "u" = some "r" then none
       else activeRoomOf ⟨[("u", ["s"])], [("u", "r")]⟩ "u") :=
  active_room_cleared_only_by_matching_leave ⟨[("u", ["s"])], [("u", "r")]⟩ (some "u") "s" "u" "r"
    (by simp [KeysNodup])

/-! ### Notification fan-out (`notificationsService.ts`)

Message text (content, sender name, titles, bodies) is modelled as
`List Char`, the sequence of code units a JS string is; ids stay `String`.
The database is modelled by two oracles: the channel / conversation lookup
result, and whether the single bulk insert succeeds (one all-or-nothing
statement; on failure nothing persists and the `catch` swallows the
error). -/

/-- A server member as the channel lookup resolves it (only the user id
matters to fan-out). -/
structure Member where
  userId : UserId
deriving DecidableEq, Repr

/-- A channel joined with its parent server's member list. -/
structure Channel where
  name : List Char
  members : List Member
deriving DecidableEq, Repr

/-- A two-party conversation. -/
structure Conversation where
  memberOneId : UserId
  memberTwoId : UserId
deriving DecidableEq, Repr

/-- `content.substring(0, 100)`. -/
def truncatedContent (content : List Char) : List Char := content.take 100

/-- Channel notification body:
`` `${senderName}: ${content.substring(0,100)}${content.length > 100 ? "..." : ""}` ``. -/
def channelNotifBody (senderName content : List Char) : List Char :=
  senderName ++ ": ".toList ++ truncatedContent content ++
    (if 100 < content.length then "...".toList else [])

/-- DM notification body:
`` `${content.substring(0,100)}${content.length > 100 ? "..." : ""}` ``. -/
def dmNotifBody (content : List Char) : List Char :=
  truncatedContent content ++ (if 100 < content.length then "...".toList else [])

/-- One row of the `notifications` table as synthesized by fan-out
(`roomId` holds `channelId` for channel messages and `conversationId` for
direct messages). -/
structure NotifRecord where
  userId : UserId
  type : String
  title : List Char
  message : List Char
  roomId : RoomId
  messageId : String
  senderId : UserId
  isRead : Bool
deriving DecidableEq, Repr

/-- One `newNotification` emit to one socket (`io.to(socketId).emit(...)`). -/
structure PushEvent where
  sessionId : SessionId
  userId : UserId
  type : String
  title : List Char
  message : List Char
  roomId : RoomId
  messageId : String
  senderId : UserId
deriving DecidableEq, Repr

/-- The observable outcome of one fan-out call: rows persisted, live events
emitted, and whether an error escaped to the caller. -/
structure FanoutEffects where
  inserted : List NotifRecord
  emitted : List PushEvent
  errored : Bool
deriving DecidableEq, Repr

/-- The `unseenUsers` filter of `createNotificationsForOfflineUsers`: skip
the sender; notify an offline member; notify an online member whose active
channel differs from this channel (`activeChannel !== channelId`, true in
particular when no active channel is recorded). -/
def unseenUsers (allMembers : List Member) (senderId : UserId) (channelId : RoomId)
    (onlineUsers : List UserId) (userActiveChannel : List (UserId × RoomId)) : List Member :=
  allMembers.filter fun member =>
    if member.userId = senderId then false
    else if member.userId ∉ onlineUsers then true
    else decide (lookupA userActiveChannel member.userId ≠ some channelId)

/-- The `notificationValues` array synthesized for the unseen members. -/
def notificationValues (channel : Channel) (channelId : RoomId) (messageId senderId : String)
    (senderName content : List Char) (unseen : List Member) : List NotifRecord :=
  unseen.map fun member =>
    { userId := member.userId
      type := "CHANNEL_MESSAGE"
      title := "New message in #".toList ++ channel.name
      message := channelNotifBody senderName content
      roomId := channelId
      messageId := messageId
      senderId := senderId
      isRead := false }

/-- The push loop shared by both fan-outs: for each target user, read their
socket set from `io.onlineUsers` and, when it is non-empty, emit
`newNotification` to every one of its socket ids. -/
def pushLoop (targets : List Member) (onlineUsersMap : List (UserId × List SessionId))
    (type : String) (title message : List Char) (roomId : RoomId)
    (messageId senderId : String) : List PushEvent :=
  targets.flatMap fun member =>
    match lookupA onlineUsersMap member.userId with
    | some userSockets =>
      if 0 < userSockets.length then
        userSockets.map fun socketId =>
          { sessionId := socketId
            userId := member.userId
            type := type
            title := title
            message := message
            roomId := roomId
            messageId := messageId
            senderId := senderId }
      else []
    | none => []

/-- `createNotificationsForOfflineUsers`: channel-message fan-out.
`channelLookup` is the db query result; `insertOk` whether the bulk insert
succeeds.  The `io` argument carries the socket-server maps
(`io.getOnlineUsers()`, `io.onlineUsers`, `io.userActiveChannels`). -/
def createNotificationsForOfflineUsers (channelLookup : Option Channel) (insertOk : Bool)
    (channelId messageId senderId : String) (senderName content : List Char)
    (io : ServerState) : FanoutEffects :=
  match channelLookup with
  | none => ⟨[], [], false⟩                 -- if (!channel) return;
  | some channel =>
    let online := getOnlineUsers io
    let unseen := unseenUsers channel.members senderId channelId online io.userActiveChannel
    if unseen = [] then ⟨[], [], false⟩     -- if (unseenUsers.length === 0) return;
    else
      if insertOk then
        ⟨notificationValues channel channelId messageId senderId senderName content unseen,
         pushLoop unseen io.onlineUsers "CHANNEL_MESSAGE"
           ("New message in #".toList ++ channel.name) (channelNotifBody senderName content)
           channelId messageId senderId,
         false⟩
      else ⟨[], [], false⟩                  -- insert threw: caught, nothing persisted or pushed

/-- The DM recipient: `memberOne.userId === senderId ? memberTwo : memberOne`. -/
def dmRecipient (conv : Conversation) (senderId : UserId) : UserId :=
  if conv.memberOneId = senderId then conv.memberTwoId else conv.memberOneId

/-- `createNotificationsForDM`: direct-message fan-out. -/
def createNotificationsForDM (conversationLookup : Option Conversation) (insertOk : Bool)
    (conversationId messageId senderId : String) (senderName content : List Char)
    (io : ServerState) : FanoutEffects :=
  match conversationLookup with
  | none => ⟨[], [], false⟩                 -- if (!conversation) return;
  | some conv =>
    let recipientId := dmRecipient conv senderId
    let online := getOnlineUsers io
    -- isViewingConversation = onlineUsers.includes(recipientId) &&
    --   userActiveChannel.get(recipientId) === conversationId
    if recipientId ∈ online ∧ lookupA io.userActiveChannel recipientId = some conversationId then
      ⟨[], [], false⟩
    else
      if insertOk then
        ⟨[{ userId := recipientId
            type := "DIRECT_MESSAGE"
            title := "New message from ".toList ++ senderName
            message := dmNotifBody content
            roomId := conversationId
            messageId := messageId
            senderId := senderId
            isRead := false }],
         pushLoop [⟨recipientId⟩] io.onlineUsers "DIRECT_MESSAGE"
           ("New message from ".toList ++ senderName) (dmNotifBody content) conversationId
           messageId senderId,
         false⟩
      else ⟨[], [], false⟩

/-! ### Claim theorems on fan-out -/

/-- C1: a member is in the unseen (notified) set iff they are a server
member other than the sender and either have no open session, or have one
but their recorded active room differs from the channel id; in particular
for members {S (sender), A (offline), B (online, active room = this
channel), C (online, active room = different channel)} the notified set is
exactly {A, C}: the synthesized records are for A and C only and B receives
no record and no event. -/
theorem channel_fanout_unseen_set :
    (∀ (allMembers : List Member) (senderId : UserId) (channelId : RoomId)
        (online : List UserId) (uac : List (UserId × RoomId)) (m : Member),
      m ∈ unseenUsers allMembers senderId channelId online uac ↔
        m ∈ allMembers ∧ m.userId ≠ senderId ∧
          (m.userId ∉ online ∨
            (m.userId ∈ online ∧ lookupA uac m.userId ≠ some channelId))) ∧
    unseenUsers [⟨"S"⟩, ⟨"A"⟩, ⟨"B"⟩, ⟨"C"⟩] "S" "ch" ["S", "B", "C"]
      [("B", "ch"), ("C", "other")] = [⟨"A"⟩, ⟨"C"⟩] ∧
    ((createNotificationsForOfflineUsers
        (some ⟨"general".toList, [⟨"S"⟩, ⟨"A"⟩, ⟨"B"⟩, ⟨"C"⟩]⟩) true "ch" "m1" "S"
        "Sam".toList "hi".toList
        ⟨[("S", ["ss"]), ("B", ["sb"]), ("C", ["sc"])],
         [("B", "ch"), ("C", "other")]⟩).inserted.map NotifRecord.userId = ["A", "C"]) ∧
    ((createNotificationsForOfflineUsers
        (some ⟨"general".toList, [⟨"S"⟩, ⟨"A"⟩, ⟨"B"⟩, ⟨"C"⟩]⟩) true "ch" "m1" "S"
        "Sam".toList "hi".toList
        ⟨[("S", ["ss"]), ("B", ["sb"]), ("C", ["sc"])],
         [("B", "ch"), ("C", "other")]⟩).emitted.filter
        (fun e => e.userId == "B") = []) := by
  refine ⟨?_, by decide, by decide, by decide⟩
  intro allMembers senderId channelId online uac m
  rw [unseenUsers, List.mem_filter]
  constructor
  · rintro ⟨hm, hp⟩
    refine ⟨hm, ?_⟩
    by_cases h1 : m.userId = senderId
    · simp [h1] at hp
    · by_cases h2 : m.userId ∈ online
      · simp [h1, h2] at hp
        exact ⟨h1, Or.inr ⟨h2, hp⟩⟩
      · exact ⟨h1, Or.inl h2⟩
  · rintro ⟨hm, hns, hrest⟩
    refine ⟨hm, ?_⟩
    rcases hrest with hoff | ⟨hon, hroom⟩
    · simp [hns, hoff]
    · simp [hns, hon, hroom]

/-- C1 witness: the general characterization applied at the concrete
{S, A, B, C} configuration. -/
theorem channel_fanout_unseen_set_witness :
    ⟨"A"⟩ ∈ unseenUsers [⟨"S"⟩, ⟨"A"⟩, ⟨"B"⟩, ⟨"C"⟩] "S" "ch" ["S", "B", "C"]
        [("B", "ch"), ("C", "other")] ↔
      Member.mk "A" ∈ [⟨"S"⟩, ⟨"A"⟩, ⟨"B"⟩, ⟨"C"⟩] ∧ (Member.mk "A").userId ≠ "S" ∧
        ((Member.mk "A").userId ∉ ["S", "B", "C"] ∨
          ((Member.mk "A").userId ∈ ["S", "B", "C"] ∧
            lookupA [("B", "ch"), ("C", "other")] (Member.mk "A").userId ≠ some "ch")) :=
  channel_fanout_unseen_set.1 [⟨"S"⟩, ⟨"A"⟩, ⟨"B"⟩, ⟨"C"⟩] "S" "ch" ["S", "B", "C"]
    [("B", "ch"), ("C", "other")] ⟨"A"⟩

/-- C2: for a two-party conversation whose sender is one of the two
participants, the recipient computed by the code is the other participant,
zero records are created iff that recipient is online with active room
equal to the conversation id, and in every other case exactly one record is
created, for that recipient. -/
theorem dm_fanout_recipient_record (conv : Conversation)
    (conversationId messageId senderId : String) (senderName content : List Char)
    (io : ServerState) (hmem : senderId = conv.memberOneId ∨ senderId = conv.memberTwoId)
    (hne : conv.memberOneId ≠ conv.memberTwoId) :
    dmRecipient conv senderId ≠ senderId ∧
    (dmRecipient conv senderId = conv.memberOneId ∨
      dmRecipient conv senderId = conv.memberTwoId) ∧
    ((createNotificationsForDM (some conv) true conversationId messageId senderId senderName
        content io).inserted = [] ↔
      (dmRecipient conv senderId ∈ getOnlineUsers io ∧
        lookupA io.userActiveChannel (dmRecipient conv senderId) = some conversationId)) ∧
    (¬(dmRecipient conv senderId ∈ getOnlineUsers io ∧
        lookupA io.userActiveChannel (dmRecipient conv senderId) = some conversationId) →
      (createNotificationsForDM (some conv) true conversationId messageId senderId senderName
          content io).inserted.map NotifRecord.userId = [dmRecipient conv senderId]) := by
  refine ⟨?_, ?_, ?_, ?_⟩
  · rcases hmem with h1 | h2
    · rw [dmRecipient, if_pos h1.symm, h1]
      exact fun hh => hne hh.symm
    · have hm1 : conv.memberOneId ≠ senderId := fun hh => hne (hh.trans h2)
      rw [dmRecipient, if_neg hm1]
      exact hm1
  · rw [dmRecipient]
    by_cases h : conv.memberOneId = senderId
    · simp [h]
    · simp [h]
  · by_cases hview : dmRecipient conv senderId ∈ getOnlineUsers io ∧
        lookupA io.userActiveChannel (dmRecipient conv senderId) = some conversationId
    · simp [createNotificationsForDM, hview]
    · simp [createNotificationsForDM, hview]
  · intro hview
    simp [createNotificationsForDM, hview]

/-- C2 witness: conversation ("a","b") with sender "a", recipient "b"
offline: exactly one record for "b". -/
theorem dm_fanout_recipient_record_witness :
    dmRecipient ⟨"a", "b"⟩ "a" ≠ "a" ∧
    (dmRecipient ⟨"a", "b"⟩ "a" = (Conversation.mk "a" "b").memberOneId ∨
      dmRecipient ⟨"a", "b"⟩ "a" = (Conversation.mk "a" "b").memberTwoId) ∧
    ((createNotificationsForDM (some ⟨"a", "b"⟩) true "conv" "m1" "a" "Al".toList
        "hi".toList initialServerState).inserted = [] ↔
      (dmRecipient ⟨"a", "b"⟩ "a" ∈ getOnlineUsers initialServerState ∧
        lookupA initialServerState.userActiveChannel (dmRecipient ⟨"a", "b"⟩ "a") =
          some "conv")) ∧
    (¬(dmRecipient ⟨"a", "b"⟩ "a" ∈ getOnlineUsers initialServerState ∧
        lookupA initialServerState.userActiveChannel (dmRecipient ⟨"a", "b"⟩ "a") =
          some "conv") →
      (createNotificationsForDM (some ⟨"a", "b"⟩) true "conv" "m1" "a" "Al".toList
          "hi".toList initialServerState).inserted.map NotifRecord.userId =
        [dmRecipient ⟨"a", "b"⟩ "a"]) :=
  dm_fanout_recipient_record ⟨"a", "b"⟩ "conv" "m1" "a" "Al".toList "hi".toList
    initialServerState (Or.inl rfl) (by decide)

/-- C6: every user classified as unseen during fan-out who has at least one
open session receives the `newNotification` event on every one of their
open session ids — for channel fan-out and for DM fan-out alike. -/
theorem push_reaches_all_sessions :
    (∀ (channel : Channel) (channelId messageId senderId : String)
        (senderName content : List Char) (io : ServerState) (m : Member)
        (socks : List SessionId) (sid : SessionId),
      m ∈ unseenUsers channel.members senderId channelId (getOnlineUsers io)
          io.userActiveChannel →
      lookupA io.onlineUsers m.userId = some socks →
      sid ∈ socks →
      ({ sessionId := sid, userId := m.userId, type := "CHANNEL_MESSAGE",
         title := "New message in #".toList ++ channel.name,
         message := channelNotifBody senderName content, roomId := channelId,
         messageId := messageId, senderId := senderId } : PushEvent) ∈
        (createNotificationsForOfflineUsers (some channel) true channelId messageId senderId
          senderName content io).emitted) ∧
    (∀ (conv : Conversation) (conversationId messageId senderId : String)
        (senderName content : List Char) (io : ServerState)
        (socks : List SessionId) (sid : SessionId),
      ¬(dmRecipient conv senderId ∈ getOnlineUsers io ∧
          lookupA io.userActiveChannel (dmRecipient conv senderId) = some conversationId) →
      lookupA io.onlineUsers (dmRecipient conv senderId) = some socks →
      sid ∈ socks →
      ({ sessionId := sid, userId := dmRecipient conv senderId, type := "DIRECT_MESSAGE",
         title := "New message from ".toList ++ senderName,
         message := dmNotifBody content, roomId := conversationId,
         messageId := messageId, senderId := senderId } : PushEvent) ∈
        (createNotificationsForDM (some conv) true conversationId messageId senderId
          senderName content io).emitted) := by
  constructor
  · intro channel channelId messageId senderId senderName content io m socks sid hm hs hsid
    have hne : unseenUsers channel.members senderId channelId (getOnlineUsers io)
        io.userActiveChannel ≠ [] := List.ne_nil_of_mem hm
    simp only [createNotificationsForOfflineUsers, if_neg hne, if_pos rfl]
    refine List.mem_flatMap.mpr ⟨m, hm, ?_⟩
    rw [hs]
    have hpos : 0 < socks.length := List.length_pos.mpr (List.ne_nil_of_mem hsid)
    simp only [if_pos hpos]
    exact List.mem_map.mpr ⟨sid, hsid, rfl⟩
  · intro conv conversationId messageId senderId senderName content io socks sid hview hs hsid
    simp only [createNotificationsForDM, if_neg hview, if_pos rfl]
    refine List.mem_flatMap.mpr ⟨⟨dmRecipient conv senderId⟩, List.mem_singleton.mpr rfl, ?_⟩
    rw [hs]
    have hpos : 0 < socks.length := List.length_pos.mpr (List.ne_nil_of_mem hsid)
    simp only [if_pos hpos]
    exact List.mem_map.mpr ⟨sid, hsid, rfl⟩

/-- C6 witness: the channel part at a concrete configuration (user "A"
online in another room with two sessions gets the push on session "a2"),
and the DM part at a concrete conversation. -/
theorem push_reaches_all_sessions_witness :
    ({ sessionId := "a2", userId := "A", type := "CHANNEL_MESSAGE",
       title := "New message in #".toList ++ "general".toList,
       message := channelNotifBody "Sam".toList "hi".toList, roomId := "ch",
       messageId := "m1", senderId := "S" } : PushEvent) ∈
      (createNotificationsForOfflineUsers (some ⟨"general".toList, [⟨"S"⟩, ⟨"A"⟩]⟩) true
        "ch" "m1" "S" "Sam".toList "hi".toList
        ⟨[("A", ["a1", "a2"])], [("A", "other")]⟩).emitted ∧
    ({ sessionId := "b1", userId := "b", type := "DIRECT_MESSAGE",
       title := "New message from ".toList ++ "Al".toList,
       message := dmNotifBody "hi".toList, roomId := "conv",
       messageId := "m2", senderId := "a" } : PushEvent) ∈
      (createNotificationsForDM (some ⟨"a", "b"⟩) true "conv" "m2" "a" "Al".toList
        "hi".toList ⟨[("b", ["b1"])], []⟩).emitted :=
  ⟨push_reaches_all_sessions.1 ⟨"general".toList, [⟨"S"⟩, ⟨"A"⟩]⟩ "ch" "m1" "S"
      "Sam".toList "hi".toList ⟨[("A", ["a1", "a2"])], [("A", "other")]⟩ ⟨"A"⟩
      ["a1", "a2"] "a2" (by decide) (by decide) (by decide),
   push_reaches_all_sessions.2 ⟨"a", "b"⟩ "conv" "m2" "a" "Al".toList "hi".toList
      ⟨[("b", ["b1"])], []⟩ ["b1"] "b1" (by decide) (by decide) (by decide)⟩

/-- C7: every synthesized channel notification record's body is the sender
name, ": ", and the message content truncated to its 100-character prefix
with "..." appended exactly when the content is strictly longer than 100
characters; content of 100 characters or fewer is embedded unmodified. -/
theorem channel_notification_body_truncation
    (channel : Channel) (insertOk : Bool) (channelId messageId senderId : String)
    (senderName content : List Char) (io : ServerState) (r : NotifRecord)
    (hr : r ∈ (createNotificationsForOfflineUsers (some channel) insertOk channelId messageId
        senderId senderName content io).inserted) :
    r.message = senderName ++ ": ".toList ++ content.take 100 ++
      (if 100 < content.length then "...".toList else []) ∧
    (content.length ≤ 100 → r.message = senderName ++ ": ".toList ++ content) ∧
    (100 < content.length →
      r.message = senderName ++ ": ".toList ++ content.take 100 ++ "...".toList ∧
      (content.take 100).length = 100) := by
  have hmsg : r.message = channelNotifBody senderName content := by
    simp only [createNotificationsForOfflineUsers] at hr
    split at hr
    · simp at hr
    · split at hr
      · obtain ⟨member, hmem, hrec⟩ := List.mem_map.mp hr
        rw [← hrec]
      · simp at hr
  refine ⟨?_, ?_, ?_⟩
  · rw [hmsg, channelNotifBody, truncatedContent]
  · intro hle
    rw [hmsg, channelNotifBody, truncatedContent, List.take_of_length_le hle,
      if_neg (not_lt.mpr hle), List.append_nil]
  · intro hlt
    refine ⟨by rw [hmsg, channelNotifBody, truncatedContent, if_pos hlt], ?_⟩
    rw [List.length_take]
    exact Nat.min_eq_left (Nat.le_of_lt hlt)

/-- C7 witness: the theorem at content "hi" and the record fan-out
synthesizes for member "A". -/
theorem channel_notification_body_truncation_witness :
    ({ userId := "A", type := "CHANNEL_MESSAGE",
       title := "New message in #".toList ++ "g".toList,
       message := channelNotifBody "Sam".toList "hi".toList, roomId := "ch",
       messageId := "m1", senderId := "S", isRead := false } : NotifRecord).message =
      "Sam".toList ++ ": ".toList ++ "hi".toList.take 100 ++
        (if 100 < "hi".toList.length then "...".toList else []) ∧
    ("hi".toList.length ≤ 100 →
      ({ userId := "A", type := "CHANNEL_MESSAGE",
         title := "New message in #".toList ++ "g".toList,
         message := channelNotifBody "Sam".toList "hi".toList, roomId := "ch",
         messageId := "m1", senderId := "S", isRead := false } : NotifRecord).message =
        "Sam".toList ++ ": ".toList ++ "hi".toList) ∧
    (100 < "hi".toList.length →
      ({ userId := "A", type := "CHANNEL_MESSAGE",
         title := "New message in #".toList ++ "g".toList,
         message := channelNotifBody "Sam".toList "hi".toList, roomId := "ch",
         messageId := "m1", senderId := "S", isRead := false } : NotifRecord).message =
        "Sam".toList ++ ": ".toList ++ "hi".toList.take 100 ++ "...".toList ∧
      ("hi".toList.take 100).length = 100) :=
  channel_notification_body_truncation ⟨"g".toList, [⟨"S"⟩, ⟨"A"⟩]⟩ true "ch" "m1" "S"
    "Sam".toList "hi".toList initialServerState _ (by decide)

/-- C8: fan-out never propagates an error to its caller, and on failure
leaves no partial state: a missing channel or conversation yields no record
and no event, and a failing bulk insert abandons the whole batch (nothing
persisted) and pushes no event. -/
theorem fanout_swallows_failures
    (channelLookup : Option Channel) (conversationLookup : Option Conversation)
    (insertOk : Bool) (channelId conversationId messageId senderId : String)
    (senderName content : List Char) (io : ServerState) :
    (createNotificationsForOfflineUsers channelLookup insertOk channelId messageId senderId
        senderName content io).errored = false ∧
    (createNotificationsForDM conversationLookup insertOk conversationId messageId senderId
        senderName content io).errored = false ∧
    (channelLookup = none →
      createNotificationsForOfflineUsers channelLookup insertOk channelId messageId senderId
        senderName content io = ⟨[], [], false⟩) ∧
    (insertOk = false →
      createNotificationsForOfflineUsers channelLookup insertOk channelId messageId senderId
        senderName content io = ⟨[], [], false⟩) ∧
    (conversationLookup = none →
      createNotificationsForDM conversationLookup insertOk conversationId messageId senderId
        senderName content io = ⟨[], [], false⟩) ∧
    (insertOk = false →
      createNotificationsForDM conversationLookup insertOk conversationId messageId senderId
        senderName content io = ⟨[], [], false⟩) := by
  refine ⟨?_, ?_, ?_, ?_, ?_, ?_⟩
  · cases channelLookup with
    | none => rfl
    | some channel =>
      simp only [createNotificationsForOfflineUsers]
      split
      · rfl
      · split <;> rfl
  · cases conversationLookup with
    | none => rfl
    | some conv =>
      simp only [createNotificationsForDM]
      split
      · rfl
      · split <;> rfl
  · rintro rfl; rfl
  · rintro rfl
    cases channelLookup with
    | none => rfl
    | some channel =>
      simp only [createNotificationsForOfflineUsers]
      split <;> rfl
  · rintro rfl; rfl
  · rintro rfl
    cases conversationLookup with
    | none => rfl
    | some conv =>
      simp only [createNotificationsForDM]
      split <;> rfl

/-- C8 witness: the theorem with a missing channel, a present conversation
and a failing insert. -/
theorem fanout_swallows_failures_witness :
    (createNotificationsForOfflineUsers none false "ch" "m1" "S" "Sam".toList "hi".toList
        initialServerState).errored = false ∧
    (createNotificationsForDM (some ⟨"a", "b"⟩) false "conv" "m1" "a" "Al".toList
        "hi".toList initialServerState).errored = false ∧
    ((none : Option Channel) = none →
      createNotificationsForOfflineUsers none false "ch" "m1" "S" "Sam".toList "hi".toList
        initialServerState = ⟨[], [], false⟩) ∧
    (false = false →
      createNotificationsForOfflineUsers none false "ch" "m1" "S" "Sam".toList "hi".toList
        initialServerState = ⟨[], [], false⟩) ∧
    ((some (Conversation.mk "a" "b")) = none →
      createNotificationsForDM (some ⟨"a", "b"⟩) false "conv" "m1" "a" "Al".toList
        "hi".toList initialServerState = ⟨[], [], false⟩) ∧
    (false = false →
      createNotificationsForDM (some ⟨"a", "b"⟩) false "conv" "m1" "a" "Al".toList
        "hi".toList initialServerState = ⟨[], [], false⟩) :=
  fanout_swallows_failures none (some ⟨"a", "b"⟩) false "ch" "conv" "m1" "S" "Sam".toList
    "hi".toList initialServerState

/-! ### `getUsersPresence` (`notificationController.ts`) -/

/-- JS `String.prototype.split(",")` over the character list. -/
def jsSplitComma : List Char → List (List Char)
  | [] => [[]]
  | c :: rest =>
    match jsSplitComma rest with
    | [] => [[c]]
    | h :: t => if c = ',' then [] :: h :: t else (c :: h) :: t

/-- JS `String.prototype.trim()`: strip leading and trailing whitespace. -/
def jsTrim (s : List Char) : List Char :=
  ((s.dropWhile Char.isWhitespace).reverse.dropWhile Char.isWhitespace).reverse

/-- `userIds.split(",").filter((id) => id.trim() !== "")`: the parsed id
list — entries are kept untrimmed, only the blank test trims. -/
def parsedUserIds (userIds : List Char) : List (List Char) :=
  (jsSplitComma userIds).filter fun id => decide (jsTrim id ≠ [])

/-- One value of the presence response (`lastSeen` is always null). -/
structure PresenceEntry where
  isOnline : Bool
  lastSeen : Option Nat
deriving DecidableEq, Repr

/-- The response object of `getUsersPresence`: for each parsed id, assign
`presence[userId] = { isOnline: onlineUsers.includes(userId), lastSeen: null }`
(a JS object holds one property per key, re-assignment overwrites). -/
def getUsersPresence (userIds : List Char) (onlineUsers : List (List Char)) :
    List (List Char × PresenceEntry) :=
  (parsedUserIds userIds).foldl
    (fun presence userId => insertA presence userId ⟨decide (userId ∈ onlineUsers), none⟩) []

/-- The key set the spec's words promise for C9: the distinct, trimmed,
non-blank entries of the comma-split input (for comparison against the
implementation's keys). -/
def specSanitizedIds (userIds : List Char) : List (List Char) :=
  (((jsSplitComma userIds).map jsTrim).filter fun id => decide (id ≠ [])).dedup

theorem mem_keys_insertA {κ α : Type} [DecidableEq κ] (m : List (κ × α)) (k k' : κ) (v : α) :
    k' ∈ (insertA m k v).map Prod.fst ↔ (k' ∈ m.map Prod.fst ∨ k' = k) := by
  rw [keys_insertA]
  by_cases hs : (lookupA m k).isSome
  · simp only [if_pos hs]
    constructor
    · exact Or.inl
    · rintro (h | rfl)
      · exact h
      · exact (mem_keys_iff_lookupA m k').mpr hs
  · simp [hs, List.mem_append]

theorem mem_pair_insertA {κ α : Type} [DecidableEq κ] (m : List (κ × α)) (k k' : κ) (v v' : α)
    (h : (k', v') ∈ insertA m k v) : (k', v') ∈ m ∨ (k' = k ∧ v' = v) := by
  induction m with
  | nil =>
    have heq : (k', v') = (k, v) := List.mem_singleton.mp h
    exact Or.inr ⟨congrArg Prod.fst heq, congrArg Prod.snd heq⟩
  | cons p rest ih =>
    obtain ⟨k₀, v₀⟩ := p
    by_cases h₀ : k₀ = k
    · subst h₀
      have hud : insertA ((k₀, v₀) :: rest) k₀ v = (k₀, v) :: rest := by
        simp [insertA]
      rw [hud] at h
      rcases List.mem_cons.mp h with heq | hmem
      · exact Or.inr ⟨congrArg Prod.fst heq, congrArg Prod.snd heq⟩
      · exact Or.inl (List.mem_cons_of_mem _ hmem)
    · simp only [insertA, if_neg h₀, List.mem_cons] at h
      rcases h with heq | hmem
      · exact Or.inl (heq ▸ List.mem_cons_self _ _)
      · rcases ih hmem with hl | hr
        · exact Or.inl (List.mem_cons_of_mem _ hl)
        · exact Or.inr hr

theorem foldl_insertA_presence (f : List Char → PresenceEntry) :
    ∀ (l : List (List Char)) (acc : List (List Char × PresenceEntry)),
      (acc.map Prod.fst).Nodup → (∀ k v, (k, v) ∈ acc → v = f k) →
      ((l.foldl (fun m k => insertA m k (f k)) acc).map Prod.fst).Nodup ∧
      (∀ k, k ∈ (l.foldl (fun m k => insertA m k (f k)) acc).map Prod.fst ↔
        (k ∈ acc.map Prod.fst ∨ k ∈ l)) ∧
      (∀ k v, (k, v) ∈ l.foldl (fun m k => insertA m k (f k)) acc → v = f k) := by
  intro l
  induction l with
  | nil =>
    intro acc hnd hval
    refine ⟨hnd, fun k => ⟨Or.inl, ?_⟩, hval⟩
    rintro (h | h)
    · exact h
    · exact absurd h (List.not_mem_nil k)
  | cons k₀ rest ih =>
    intro acc hnd hval
    have hnd' := keys_nodup_insertA acc k₀ (f k₀) hnd
    have hval' : ∀ k v, (k, v) ∈ insertA acc k₀ (f k₀) → v = f k := by
      intro k v hkv
      rcases mem_pair_insertA acc k₀ k (f k₀) v hkv with hm | ⟨rfl, rfl⟩
      · exact hval k v hm
      · rfl
    obtain ⟨h1, h2, h3⟩ := ih (insertA acc k₀ (f k₀)) hnd' hval'
    refine ⟨h1, ?_, h3⟩
    intro k
    rw [List.foldl_cons, h2 k, mem_keys_insertA]
    simp only [List.mem_cons]
    tauto

/-- C9 counterexample: for the input "a ,b" the response's keys are the
untrimmed entries — "a " (with its trailing space) is a key and the trimmed
id "a" is not — refuting the claim that the keys are the distinct trimmed
ids of the comma-split input. -/
theorem users_presence_keys_not_trimmed :
    "a ".toList ∈ (getUsersPresence "a ,b".toList []).map Prod.fst ∧
    "a ".toList ∉ specSanitizedIds "a ,b".toList ∧
    "a".toList ∈ specSanitizedIds "a ,b".toList ∧
    "a".toList ∉ (getUsersPresence "a ,b".toList []).map Prod.fst := by
  decide

/-- C9 amended: the response's keys are exactly the distinct entries of the
comma-split input that are non-blank after trimming, kept in their original
untrimmed form (no surrounding-whitespace removal), and every value is
{isOnline: membership of that raw entry in the online-users snapshot,
lastSeen: null}. -/
theorem users_presence_keys_untrimmed_dedup (userIds : List Char)
    (onlineUsers : List (List Char)) :
    ((getUsersPresence userIds onlineUsers).map Prod.fst).Nodup ∧
    (∀ k, k ∈ (getUsersPresence userIds onlineUsers).map Prod.fst ↔
      k ∈ parsedUserIds userIds) ∧
    (∀ k v, (k, v) ∈ getUsersPresence userIds onlineUsers →
      v.isOnline = decide (k ∈ onlineUsers) ∧ v.lastSeen = none) := by
  obtain ⟨h1, h2, h3⟩ := foldl_insertA_presence
    (fun k => ⟨decide (k ∈ onlineUsers), none⟩) (parsedUserIds userIds) [] (by simp) (by simp)
  refine ⟨h1, ?_, ?_⟩
  · intro k
    rw [getUsersPresence, h2 k]
    simp
  · intro k v hkv
    have hv := h3 k v hkv
    rw [hv]
    exact ⟨rfl, rfl⟩

/-- C9 amended witness: the theorem at the input "a ,b" with "a " online. -/
theorem users_presence_keys_untrimmed_dedup_witness :
    ((getUsersPresence "a ,b".toList [['a', ' ']]).map Prod.fst).Nodup ∧
    (∀ k, k ∈ (getUsersPresence "a ,b".toList [['a', ' ']]).map Prod.fst ↔
      k ∈ parsedUserIds "a ,b".toList) ∧
    (∀ k v, (k, v) ∈ getUsersPresence "a ,b".toList [['a', ' ']] →
      v.isOnline = decide (k ∈ [['a', ' ']]) ∧ v.lastSeen = none) :=
  users_presence_keys_untrimmed_dedup "a ,b".toList [['a', ' ']]

end DiscordBackend
